/-
Verification of the cc-sessions local persistence and retention engine.

This file gives a shallow embedding of the TypeScript source in
src/store/sessions.ts (SessionStore, SearchIndex) and src/store/retention.ts
(RetentionManager), and proves or refutes the frozen behavioural claims
about it.

Modelling conventions:
- JS `Date` values and SQLite INTEGER timestamps are milliseconds since the
  Unix epoch, modelled as `Nat`; arithmetic that can go negative in JS
  (cutoff computations) is done in `Int`.
- A SQLite row is modelled by `Row`.  TEXT cells holding JSON arrays
  (tasks_json, files_created_json, ...) are modelled by the structured value
  they encode: `JSON.stringify` / `JSON.parse` round-trip losslessly on the
  string lists involved, and the Date-to-ISO-string change inside serialized
  tasks is a storage representation change.  The serialized JSON text itself
  is still produced (stringifyTasks, stringifyStrings) because the FTS
  triggers index it.
- The FTS5 virtual table is modelled by a list of `FtsEntry`: the values
  the triggers insert, in insertion (rowid) order.  Two facts about the
  real schema shape the model.  (1) INSERT OR REPLACE resolves the id
  conflict by deleting the old row WITHOUT firing the sessions_ad trigger:
  SQLite fires delete triggers during REPLACE conflict resolution only
  when recursive_triggers is on, and the code sets only journal_mode and
  synchronous - so an upsert appends a fresh index entry and leaves the old
  one behind, stale, under a dead rowid.  (2) sessions_fts declares
  content='sessions' but names columns tasks_text, files_text and
  tags_text that the sessions table does not have, so MATCH works against
  the inverted index (populated by the triggers' explicit values) while
  reading any matched row's column values fails with 'no such column':
  the first index hit makes stmt.all throw inside the try and search
  answers from the LIKE fallback; a query with no index hit completes with
  no rows and search returns the empty list.  An explicit DELETE or UPDATE
  does fire its trigger, whose 'delete' command removes that row's own
  (latest-generation) entry.  MATCH for the query form '"q"*' built by
  SessionStore.search is a case-folded phrase query whose last token
  matches by prefix; the default unicode61 tokenizer is modelled as
  maximal runs of ASCII alphanumeric characters compared after ASCII case
  folding.
- The fts5 query parser's acceptance set is external SQLite behaviour, a
  parameter (`Fts5Engine`); theorems hold for every choice of it.  bm25
  and highlight() are declared along with it, but the broken read path
  never evaluates them.
- The file system is an association list from absolute path to byte size.
  SQLite never shrinks the database file on DELETE, so store deletions do
  not change the file map.  gzip output size is a parameter `gz`.
-/
import Mathlib

namespace CCSessions

/-! ## Basic data model (src/types.ts) -/

/-- Task.status : 'pending' | 'in_progress' | 'completed' | 'blocked'. -/
inductive TaskStatus where
  | pending
  | in_progress
  | completed
  | blocked

deriving instance DecidableEq, Repr for TaskStatus

/-- Task, from src/types.ts.  Date fields are epoch milliseconds. -/
structure Task where
  id : String
  description : String
  status : TaskStatus
  createdAt : Nat
  completedAt : Option Nat
  relatedFiles : Option (List String)
  notes : Option String

deriving instance DecidableEq, Repr for Task

/-- SessionMemory, from src/types.ts.  The optional `synced?: boolean` is
modelled as `Bool` (undefined and false bind identically in save). -/
structure SessionMemory where
  id : String
  claudeSessionId : String
  projectPath : String
  projectName : String
  startedAt : Nat
  endedAt : Nat
  duration : Nat
  summary : String
  description : String
  tasks : List Task
  tasksCompleted : Nat
  tasksPending : Nat
  filesCreated : List String
  filesModified : List String
  filesDeleted : List String
  lastUserMessage : String
  lastAssistantMessage : String
  nextSteps : List String
  keyDecisions : List String
  blockers : List String
  tokensUsed : Nat
  messagesCount : Nat
  toolCallsCount : Nat
  tags : List String
  archived : Bool
  archivedAt : Option Nat
  synced : Bool
  syncedAt : Option Nat
  logFile : String
  logFileArchived : Option String

deriving instance DecidableEq, Repr for SessionMemory

/-! ## ASCII case folding and tokenization (FTS5 unicode61 model) -/

/-- ASCII lower-casing on code points, as used by FTS5 case folding and by
SQLite LIKE's default ASCII case-insensitivity. -/
def lowerN (n : Nat) : Nat := if 65 ≤ n ∧ n ≤ 90 then n + 32 else n

/-- Canonical (case-folded) form of a character sequence. -/
def canon (cs : List Char) : List Nat := cs.map (fun c => lowerN c.toNat)

/-- Canonical form of a string. -/
def canonStr (s : String) : List Nat := canon s.toList

/-- Token characters of the tokenizer model: ASCII alphanumerics. -/
def isTokChar (c : Char) : Bool := c.isAlphanum

/-- Maximal runs of token characters. -/
def tokenizeAux : List Char → List (List Char)
  | [] => []
  | c :: cs =>
    let ts := tokenizeAux cs
    if isTokChar c then
      match cs with
      | [] => [[c]]
      | d :: _ =>
        if isTokChar d then
          match ts with
          | t :: ts1 => (c :: t) :: ts1
          | [] => [[c]]
        else [c] :: ts
    else ts

/-- Tokens of a string, as raw character runs. -/
def tokenize (s : String) : List (List Char) := tokenizeAux s.toList

/-- Case-folded token equality. -/
def tokEq (a b : List Char) : Bool := canon a = canon b

/-- Case-folded "a is a prefix of b" on tokens (FTS5 '...'* matching). -/
def tokPre (a b : List Char) : Bool := (canon a).isPrefixOf (canon b)

/-- Phrase-with-last-token-prefix match anchored at the start of a token
sequence, the semantics of an FTS5 query of the form '"t1 ... tn"*'. -/
def phraseAt : List (List Char) → List (List Char) → Bool
  | [], _ => false
  | [_], [] => false
  | [q], d :: _ => tokPre q d
  | _ :: _ :: _, [] => false
  | q :: q1 :: qs, d :: ds => tokEq q d && phraseAt (q1 :: qs) ds

/-- A phrase query matches a token sequence if it matches at some position. -/
def phraseHit (qs : List (List Char)) (doc : List (List Char)) : Bool :=
  doc.tails.any (phraseAt qs)

/-! ## JSON serialization (for the text the FTS triggers index) -/

/-- JSON string escaping for the characters relevant here. -/
def jsonEscapeChar (c : Char) : List Char :=
  if c = '"' then ['\\', '"']
  else if c = '\\' then ['\\', '\\']
  else if c.toNat = 10 then ['\\', 'n']
  else if c.toNat = 13 then ['\\', 'r']
  else if c.toNat = 9 then ['\\', 't']
  else [c]

/-- JSON-quoted string. -/
def quoteJson (s : String) : String :=
  "\"" ++ String.mk (s.toList.flatMap jsonEscapeChar) ++ "\""

/-- JSON.stringify of a string array. -/
def stringifyStrings (l : List String) : String :=
  "[" ++ String.intercalate "," (l.map quoteJson) ++ "]"

/-- Two-digit zero padding. -/
def pad2 (n : Nat) : String := if n < 10 then "0" ++ toString n else toString n

/-- Three-digit zero padding. -/
def pad3 (n : Nat) : String :=
  if n < 10 then "00" ++ toString n
  else if n < 100 then "0" ++ toString n
  else toString n

/-- Four-digit zero padding. -/
def pad4 (n : Nat) : String :=
  if n < 10 then "000" ++ toString n
  else if n < 100 then "00" ++ toString n
  else if n < 1000 then "0" ++ toString n
  else toString n

/-- Date.prototype.toISOString on epoch milliseconds (civil-from-days). -/
def toISO (ms : Nat) : String :=
  let days := ms / 86400000
  let rem := ms % 86400000
  let hh := rem / 3600000
  let mi := rem % 3600000 / 60000
  let ss := rem % 60000 / 1000
  let mil := rem % 1000
  let z := days + 719468
  let era := z / 146097
  let doe := z % 146097
  let yoe := (doe - doe / 1460 + doe / 36524 - doe / 146096) / 365
  let y0 := yoe + era * 400
  let doy := doe - (365 * yoe + yoe / 4 - yoe / 100)
  let mp := (5 * doy + 2) / 153
  let d := doy - (153 * mp + 2) / 5 + 1
  let m := if mp < 10 then mp + 3 else mp - 9
  let y := if m ≤ 2 then y0 + 1 else y0
  pad4 y ++ "-" ++ pad2 m ++ "-" ++ pad2 d ++ "T" ++ pad2 hh ++ ":" ++
    pad2 mi ++ ":" ++ pad2 ss ++ "." ++ pad3 mil ++ "Z"

/-- Task.status serialized value. -/
def statusText : TaskStatus → String
  | .pending => "pending"
  | .in_progress => "in_progress"
  | .completed => "completed"
  | .blocked => "blocked"

/-- JSON.stringify of one Task (Date fields become ISO strings; undefined
optional fields are omitted, as JSON.stringify does). -/
def stringifyTask (t : Task) : String :=
  "\x7b" ++ quoteJson "id" ++ ":" ++ quoteJson t.id ++ "," ++
    quoteJson "description" ++ ":" ++ quoteJson t.description ++ "," ++
    quoteJson "status" ++ ":" ++ quoteJson (statusText t.status) ++ "," ++
    quoteJson "createdAt" ++ ":" ++ quoteJson (toISO t.createdAt) ++
    (match t.completedAt with
     | some c => "," ++ quoteJson "completedAt" ++ ":" ++ quoteJson (toISO c)
     | none => "") ++
    (match t.relatedFiles with
     | some fs => "," ++ quoteJson "relatedFiles" ++ ":" ++ stringifyStrings fs
     | none => "") ++
    (match t.notes with
     | some n => "," ++ quoteJson "notes" ++ ":" ++ quoteJson n
     | none => "") ++ "\x7d"

/-- JSON.stringify of a Task array. -/
def stringifyTasks (l : List Task) : String :=
  "[" ++ String.intercalate "," (l.map stringifyTask) ++ "]"

/-! ## Stable sorting (JS Array.prototype.sort is stable; SELECT ... ORDER BY
is modelled as a stable sort on the row list) -/

/-- Stable descending insertion by an Int key: an element keeps its place
before strictly-smaller keys and goes after earlier equal keys. -/
def insDescBy (key : α → Int) (x : α) : List α → List α
  | [] => [x]
  | y :: ys => if key y ≤ key x then x :: y :: ys else y :: insDescBy key x ys

/-- Stable descending insertion sort. -/
def sortDescBy (key : α → Int) : List α → List α
  | [] => []
  | x :: xs => insDescBy key x (sortDescBy key xs)

/-- Stable ascending insertion by an Int key. -/
def insAscBy (key : α → Int) (x : α) : List α → List α
  | [] => [x]
  | y :: ys => if key x ≤ key y then x :: y :: ys else y :: insAscBy key x ys

/-- Stable ascending insertion sort. -/
def sortAscBy (key : α → Int) : List α → List α
  | [] => []
  | x :: xs => insAscBy key x (sortAscBy key xs)

/-! ## File system model -/

/-- A file system: absolute path to size in bytes. -/
abbrev FileMap := List (String × Nat)

/-- fs.existsSync. -/
def fileExists (fs : FileMap) (p : String) : Bool :=
  fs.any (fun e => e.1 = p)

/-- fs.statSync(...).size, 0 when absent. -/
def fileSize (fs : FileMap) (p : String) : Nat :=
  match fs.find? (fun e => e.1 = p) with
  | some e => e.2
  | none => 0

/-- fs.writeFileSync (replace or create). -/
def writeFile (fs : FileMap) (p : String) (n : Nat) : FileMap :=
  fs.filter (fun e => e.1 ≠ p) ++ [(p, n)]

/-- fs.unlinkSync. -/
def removeFile (fs : FileMap) (p : String) : FileMap :=
  fs.filter (fun e => e.1 ≠ p)

/-- Recursive directory size (RetentionManager.getDirSize): total size of
the files whose path lies under the directory. -/
def dirSize (fs : FileMap) (dir : String) : Nat :=
  ((fs.filter (fun e => (dir ++ "/").toList.isPrefixOf e.1.toList)).map
    (fun e => e.2)).sum

/-- os.homedir() of the running user, an opaque constant. -/
def HOME : String := "/home/user"

/-- DB_DIR = path.join(os.homedir(), '.cc-sessions'). -/
def DB_DIR : String := HOME ++ "/.cc-sessions"

/-- DB_PATH = path.join(DB_DIR, 'index.db'), the module-level constant that
SessionStore.getStats consults regardless of the constructed path. -/
def DB_PATH : String := DB_DIR ++ "/index.db"

/-- ARCHIVE_DIR = path.join(os.homedir(), '.cc-sessions', 'archive'). -/
def ARCHIVE_DIR : String := DB_DIR ++ "/archive"

/-! ## The sessions table and its FTS index (src/store/sessions.ts) -/

/-- One row of the `sessions` table, as SessionStore.save binds it.  JSON
TEXT cells are modelled by the value they encode; `archived`/`synced`
INTEGER 0/1 cells by Bool; nullable INTEGER/TEXT cells by Option. -/
structure Row where
  id : String
  claudeSessionId : String
  projectPath : String
  projectName : String
  startedAt : Nat
  endedAt : Nat
  duration : Nat
  summary : String
  description : String
  tasksJson : List Task
  tasksCompleted : Nat
  tasksPending : Nat
  filesCreatedJson : List String
  filesModifiedJson : List String
  filesDeletedJson : List String
  lastUserMessage : String
  lastAssistantMessage : String
  nextStepsJson : List String
  keyDecisionsJson : List String
  blockersJson : List String
  tokensUsed : Nat
  messagesCount : Nat
  toolCallsCount : Nat
  tagsJson : List String
  archived : Bool
  archivedAt : Option Nat
  synced : Bool
  syncedAt : Option Nat
  logFile : String
  logFileArchived : Option String
  updatedAt : Nat

deriving instance DecidableEq, Repr for Row

/-- JS falsy-guard on an optional timestamp: `d?.getTime() || null` maps
undefined and epoch 0 to NULL; identically, `row.ts ? new Date(...) :
undefined` maps NULL and 0 to undefined. -/
def normTime : Option Nat → Option Nat
  | some t => if t = 0 then none else some t
  | none => none

/-- JS falsy-guard on an optional string: `s || null` maps undefined and ''
to NULL; `row.s ? String(row.s) : undefined` maps NULL and '' to
undefined. -/
def normStr : Option String → Option String
  | some s => if s = "" then none else some s
  | none => none

/-- The INSERT OR REPLACE parameter binding of SessionStore.save. -/
def bindRow (s : SessionMemory) (now : Nat) : Row where
  id := s.id
  claudeSessionId := s.claudeSessionId
  projectPath := s.projectPath
  projectName := s.projectName
  startedAt := s.startedAt
  endedAt := s.endedAt
  duration := s.duration
  summary := s.summary
  description := s.description
  tasksJson := s.tasks
  tasksCompleted := s.tasksCompleted
  tasksPending := s.tasksPending
  filesCreatedJson := s.filesCreated
  filesModifiedJson := s.filesModified
  filesDeletedJson := s.filesDeleted
  lastUserMessage := s.lastUserMessage
  lastAssistantMessage := s.lastAssistantMessage
  nextStepsJson := s.nextSteps
  keyDecisionsJson := s.keyDecisions
  blockersJson := s.blockers
  tokensUsed := s.tokensUsed
  messagesCount := s.messagesCount
  toolCallsCount := s.toolCallsCount
  tagsJson := s.tags
  archived := s.archived
  archivedAt := normTime s.archivedAt
  synced := s.synced
  syncedAt := normTime s.syncedAt
  logFile := s.logFile
  logFileArchived := normStr s.logFileArchived
  updatedAt := now

/-- SessionStore.rowToSession. -/
def rowToSession (r : Row) : SessionMemory where
  id := r.id
  claudeSessionId := r.claudeSessionId
  projectPath := r.projectPath
  projectName := r.projectName
  startedAt := r.startedAt
  endedAt := r.endedAt
  duration := r.duration
  summary := r.summary
  description := r.description
  tasks := r.tasksJson
  tasksCompleted := r.tasksCompleted
  tasksPending := r.tasksPending
  filesCreated := r.filesCreatedJson
  filesModified := r.filesModifiedJson
  filesDeleted := r.filesDeletedJson
  lastUserMessage := r.lastUserMessage
  lastAssistantMessage := r.lastAssistantMessage
  nextSteps := r.nextStepsJson
  keyDecisions := r.keyDecisionsJson
  blockers := r.blockersJson
  tokensUsed := r.tokensUsed
  messagesCount := r.messagesCount
  toolCallsCount := r.toolCallsCount
  tags := r.tagsJson
  archived := r.archived
  archivedAt := normTime r.archivedAt
  synced := r.synced
  syncedAt := normTime r.syncedAt
  logFile := r.logFile
  logFileArchived := normStr r.logFileArchived

/-- One row of the sessions_fts virtual table, as the triggers populate it
(column 0 is the record id and is indexed too). -/
structure FtsEntry where
  id : String
  summary : String
  description : String
  tasksText : String
  filesText : String
  lastUserMessage : String
  lastAssistantMessage : String
  tagsText : String

deriving instance DecidableEq, Repr for FtsEntry

/-- The FTS values the sessions_ai / sessions_au triggers compute from a
row (files_text is files_created_json || ' ' || files_modified_json). -/
def ftsOfRow (r : Row) : FtsEntry where
  id := r.id
  summary := r.summary
  description := r.description
  tasksText := stringifyTasks r.tasksJson
  filesText := stringifyStrings r.filesCreatedJson ++ " " ++
    stringifyStrings r.filesModifiedJson
  lastUserMessage := r.lastUserMessage
  lastAssistantMessage := r.lastAssistantMessage
  tagsText := stringifyStrings r.tagsJson

/-- The columns of an FTS entry, in table order. -/
def ftsColumns (e : FtsEntry) : List String :=
  [e.id, e.summary, e.description, e.tasksText, e.filesText,
   e.lastUserMessage, e.lastAssistantMessage, e.tagsText]

/-- SessionStore.search escapes single and double quotes out of the query
before embedding it in a phrase (code point 39 is the single quote). -/
def stripQuotes (q : String) : String :=
  String.mk (q.toList.filter (fun c => c.toNat ≠ 39 ∧ c ≠ '"'))

/-- The FTS query string handed to MATCH: '"escaped"*'. -/
def ftsQueryString (q : String) : String := "\"" ++ stripQuotes q ++ "\"*"

/-- MATCH of the phrase-prefix query built from raw query q against one
entry: the phrase must hit inside a single column. -/
def ftsEntryMatch (q : String) (e : FtsEntry) : Bool :=
  (ftsColumns e).any (fun col => phraseHit (tokenize (stripQuotes q)) (tokenize col))

/-- External SQLite behaviour around SessionStore.search: whether the
fts5 query parser accepts the query string (a rejected query errors at
step time, inside the try).  bm25 scoring and highlight() are declared
with it for completeness, but the statement's result path never reaches
them: the first index hit already fails on the missing content
columns. -/
structure Fts5Engine where
  parseOk : String → Bool
  score : String → FtsEntry → Int
  highlight : String → String → String

/-- SearchMatch, from src/types.ts. -/
structure SearchMatch where
  field : String
  text : String
  highlight : String

deriving instance DecidableEq, Repr for SearchMatch

/-- SearchResult, from src/types.ts; score is Math.abs of the raw score. -/
structure SearchResult where
  session : SessionMemory
  score : Nat
  matchItems : List SearchMatch

deriving instance DecidableEq, Repr for SearchResult

/-- The database state: the sessions table in rowid order, and the
sessions_fts table as maintained by the three triggers. -/
structure StoreState where
  rows : List Row
  fts : List FtsEntry

deriving instance DecidableEq, Repr for StoreState

namespace Store

/-- The empty store. -/
def empty : StoreState := ⟨[], []⟩

/-- SessionStore.save: INSERT OR REPLACE by primary key `id`.  The
conflicting old row is deleted and the new row appended with a fresh
rowid; the REPLACE-internal delete does NOT fire the sessions_ad trigger
(recursive_triggers is off and never enabled), so the old row's index
entry survives as a stale entry, while sessions_ai appends the new
row's entry. -/
def save (st : StoreState) (s : SessionMemory) (now : Nat) : StoreState where
  rows := st.rows.filter (fun r => r.id ≠ s.id) ++ [bindRow s now]
  fts := st.fts ++ [ftsOfRow (bindRow s now)]

/-- SessionStore.getById. -/
def getById (st : StoreState) (id : String) : Option SessionMemory :=
  (st.rows.find? (fun r => r.id = id)).map rowToSession

/-- SessionStore.getAll: SELECT ... ORDER BY started_at DESC, optionally
restricted to archived = 0. -/
def getAll (st : StoreState) (includeArchived : Bool) : List SessionMemory :=
  (sortDescBy (fun r => (r.startedAt : Int))
    (if includeArchived then st.rows else st.rows.filter (fun r => r.archived = false))).map
    rowToSession

/-- Sort key for getArchived's ORDER BY archived_at DESC (NULL sorts as the
smallest value in SQLite). -/
def archivedAtKey (r : Row) : Int :=
  match r.archivedAt with
  | some t => (t : Int)
  | none => -1

/-- SessionStore.getArchived. -/
def getArchived (st : StoreState) : List SessionMemory :=
  (sortDescBy archivedAtKey (st.rows.filter (fun r => r.archived = true))).map rowToSession

/-- The LIKE '%q%' test of the fallback search: ASCII-case-insensitive
substring containment (LIKE wildcard characters inside q are not
modelled; the fallback's patterns place q verbatim between two %). -/
def likeContains (q t : String) : Bool :=
  (canonStr t).tails.any (fun suf => (canonStr q).isPrefixOf suf)

/-- WHERE clause of the fallback search: summary LIKE ? OR description
LIKE ? OR last_user_message LIKE ?. -/
def likeRow (q : String) (r : Row) : Bool :=
  likeContains q r.summary || likeContains q r.description ||
    likeContains q r.lastUserMessage

/-- SessionStore.simplSearch: LIKE filter, ORDER BY started_at DESC,
LIMIT, constant score 1, summary echoed as the single match. -/
def simplSearch (st : StoreState) (q : String) (limit : Nat) : List SearchResult :=
  ((sortDescBy (fun r => (r.startedAt : Int)) (st.rows.filter (likeRow q))).take
      limit).map
    (fun r => ⟨rowToSession r, 1, [⟨"summary", r.summary, r.summary⟩]⟩)

/-- SessionStore.search: the FTS statement inside try, the LIKE fallback
inside catch.  The statement's result path never completes on this
schema: sessions_fts is an external-content table whose declared columns
tasks_text, files_text and tags_text do not exist in the sessions table,
so as soon as MATCH produces an index hit, fetching that row's values
raises 'no such column' inside stmt.all and the catch runs simplSearch;
with no index hit the statement yields no rows and search returns [].  A
query the fts5 parser rejects also errors at step time into the same
catch. -/
def search (E : Fts5Engine) (st : StoreState) (q : String) (limit : Nat) :
    List SearchResult :=
  if E.parseOk (ftsQueryString q) then
    if st.fts.any (ftsEntryMatch q) then simplSearch st q limit else []
  else simplSearch st q limit

/-- Milliseconds per day, the 24 * 60 * 60 * 1000 of the source. -/
def msPerDay : Nat := 86400000

/-- The WHERE predicate of archiveOld: started_at < cutoff AND
archived = 0. -/
def archiveHit (cutoff : Int) (r : Row) : Bool :=
  decide ((r.startedAt : Int) < cutoff) && !r.archived

/-- SessionStore.archiveOld: UPDATE ... SET archived = 1, archived_at = now
WHERE started_at < now - days AND archived = 0; returns changes.  The
update trigger rewrites each touched FTS entry with values equal to the
old ones (no indexed column changes), so the index is unchanged. -/
def archiveOld (st : StoreState) (olderThanDays : Nat) (now : Nat) :
    StoreState × Nat :=
  let cutoff : Int := (now : Int) - (olderThanDays : Int) * (msPerDay : Int)
  (⟨st.rows.map (fun r =>
      if archiveHit cutoff r then
        { r with archived := true, archivedAt := some now }
      else r),
    st.fts⟩,
   (st.rows.filter (archiveHit cutoff)).length)

/-- The FTS5 'delete' command the sessions_ad trigger issues for one
deleted row: it removes that row's own index entry - the latest entry
under the row's id, since the live generation was inserted last - and
leaves stale entries from earlier REPLACE overwrites untouched. -/
def removeLastEntry (id : String) (l : List FtsEntry) : List FtsEntry :=
  (l.reverse.eraseP (fun e => e.id = id)).reverse

/-- SessionStore.deleteOld: DELETE WHERE started_at < now - days; the
delete trigger fires per deleted row and drops that row's index
entry. -/
def deleteOld (st : StoreState) (olderThanDays : Nat) (now : Nat) :
    StoreState × Nat :=
  let cutoff : Int := (now : Int) - (olderThanDays : Int) * (msPerDay : Int)
  let doomed := fun (r : Row) => decide ((r.startedAt : Int) < cutoff)
  (⟨st.rows.filter (fun r => !doomed r),
    (st.rows.filter doomed).foldl (fun acc r => removeLastEntry r.id acc)
      st.fts⟩,
   (st.rows.filter doomed).length)

/-- SessionStore.updateArchivePath: UPDATE ... SET log_file_archived = ?,
updated_at = ? WHERE id = ?; no indexed column changes. -/
def updateArchivePath (st : StoreState) (id archivePath : String) (now : Nat) :
    StoreState :=
  ⟨st.rows.map (fun r =>
      if r.id = id then
        { r with logFileArchived := some archivePath, updatedAt := now }
      else r),
    st.fts⟩

/-- SessionStore.delete: DELETE WHERE id = ?; returns changes > 0.  When
a row is deleted, sessions_ad removes that row's index entry; when no row
has the id, no trigger fires and the index is untouched. -/
def delete (st : StoreState) (id : String) : StoreState × Bool :=
  (⟨st.rows.filter (fun r => r.id ≠ id),
    if st.rows.any (fun r => r.id = id) then removeLastEntry id st.fts
    else st.fts⟩,
   st.rows.any (fun r => r.id = id))

/-- StorageStats, from src/types.ts (Date extrema as epoch milliseconds). -/
structure StorageStats where
  totalSessions : Nat
  activeSessions : Nat
  archivedSessions : Nat
  storageUsedBytes : Nat
  oldestSession : Option Nat
  newestSession : Option Nat

deriving instance DecidableEq, Repr for StorageStats

/-- SQL MIN over started_at (NULL on an empty table). -/
def minStarted (rows : List Row) : Option Nat :=
  match rows.map (fun r => r.startedAt) with
  | [] => none
  | x :: xs => some (xs.foldl Nat.min x)

/-- SQL MAX over started_at. -/
def maxStarted (rows : List Row) : Option Nat :=
  match rows.map (fun r => r.startedAt) with
  | [] => none
  | x :: xs => some (xs.foldl Nat.max x)

/-- SessionStore.getStats.  It measures the file at the module constant
DB_PATH, not at the path the store was constructed with, and the
`row.oldest ? ... : undefined` guards drop a 0 extremum (normTime). -/
def getStats (st : StoreState) (fs : FileMap) : StorageStats where
  totalSessions := st.rows.length
  activeSessions := (st.rows.filter (fun r => r.archived = false)).length
  archivedSessions := (st.rows.filter (fun r => r.archived = true)).length
  storageUsedBytes := if fileExists fs DB_PATH then fileSize fs DB_PATH else 0
  oldestSession := normTime (minStarted st.rows)
  newestSession := normTime (maxStarted st.rows)

end Store

/-! ## SearchIndex (src/store/index.ts) -/

namespace SearchIndex

/-- The similarity score loop of SearchIndex.getRelated, accumulator
style as in the source: +5 same project, then +3 per target
created/modified file contained in the candidate's created/modified
files, then +2 per shared tag (Array.prototype.includes is value
equality). -/
def relatedScore (target cand : SessionMemory) : Nat :=
  let allFiles := target.filesCreated ++ target.filesModified
  let sFiles := cand.filesCreated ++ cand.filesModified
  let s1 := if cand.projectPath = target.projectPath then 5 else 0
  let s2 := allFiles.foldl
    (fun acc f => if sFiles.any (fun g => g = f) then acc + 3 else acc) s1
  target.tags.foldl
    (fun acc tg => if cand.tags.any (fun g => g = tg) then acc + 2 else acc) s2

/-- SearchIndex.getRelated: score the non-archived sessions other than the
target, drop score 0, stable-sort descending by score (JS sort), take
limit. -/
def getRelated (st : StoreState) (sessionId : String) (limit : Nat) :
    List SessionMemory :=
  match Store.getById st sessionId with
  | none => []
  | some session =>
    let scored := ((Store.getAll st false).filter (fun s => s.id ≠ sessionId)).map
      (fun s => (s, relatedScore session s))
    ((sortDescBy (fun p => (p.2 : Int)) (scored.filter (fun p => 0 < p.2))).take
        limit).map (fun p => p.1)

/-- Modelled from the claim wording: the additive similarity score — same
project +5, +3 for each file path of the target's created+modified lists
contained in the candidate's created+modified lists, +2 for each target
tag contained in the candidate's tags. -/
def specScore (target cand : SessionMemory) : Nat :=
  (if cand.projectPath = target.projectPath then 5 else 0) +
    3 * ((target.filesCreated ++ target.filesModified).countP
      (fun f => decide (f ∈ cand.filesCreated ++ cand.filesModified))) +
    2 * (target.tags.countP (fun tg => decide (tg ∈ cand.tags)))

/-- The claim's ranking pipeline, over the store's natural (recency) order:
all other non-archived records scored additively, zero scores excluded,
ordered by score descending with ties kept in natural order, truncated. -/
def specRelated (st : StoreState) (sessionId : String) (limit : Nat) :
    List SessionMemory :=
  match Store.getById st sessionId with
  | none => []
  | some session =>
    ((sortDescBy (fun p => (p.2 : Int))
        ((((Store.getAll st false).filter (fun s => s.id ≠ sessionId)).map
            (fun s => (s, specScore session s))).filter
          (fun p => 0 < p.2))).take limit).map (fun p => p.1)

end SearchIndex

/-! ## RetentionManager (src/store/retention.ts) -/

/-- RetentionConfig, the fields runCleanup reads. -/
structure RetentionConfig where
  fullSessions : String
  archives : String
  maxStorageGb : Nat

deriving instance DecidableEq, Repr for RetentionConfig

/-- CleanupReport, from src/types.ts. -/
structure CleanupReport where
  sessionsArchived : Nat
  sessionsDeleted : Nat
  bytesFreed : Nat
  logFilesBackedUp : Nat

deriving instance DecidableEq, Repr for CleanupReport

/-- The world a RetentionManager acts on: the store, the file system, and
the path the SessionStore was constructed with (getStats ignores it). -/
structure RWorld where
  store : StoreState
  fs : FileMap
  dbPath : String

deriving instance DecidableEq, Repr for RWorld

namespace Retention

/-- The regex match ^(\d+)(d|m|y)$ of parseDays: the digit group and the
unit character, or none. -/
def regexDMY (s : String) : Option (List Char × Char) :=
  match s.toList.getLast? with
  | none => none
  | some u =>
    let num := s.toList.dropLast
    if (u = 'd' ∨ u = 'm' ∨ u = 'y') ∧ num ≠ [] ∧ num.all Char.isDigit then
      some (num, u)
    else none

/-- parseInt(numStr, 10) on a digit string. -/
def digitsToNat (cs : List Char) : Nat :=
  cs.foldl (fun a c => a * 10 + (c.toNat - 48)) 0

/-- RetentionManager.parseDays; none models the Infinity sentinel. -/
def parseDays (retention : String) : Option Nat :=
  if retention = "forever" then none
  else
    match regexDMY retention with
    | none => some 30
    | some (numStr, unit) =>
      let num := digitsToNat numStr
      if unit = 'd' then some num
      else if unit = 'm' then some (num * 30)
      else if unit = 'y' then some (num * 365)
      else some 30

/-- Modelled from the claim wording: "forever" is unbounded; a string of
the form N followed by 'd', 'm' or 'y' maps to N, N*30, N*365 days; every
other string maps to 30 days. -/
def specParseDays (s : String) : Option Nat :=
  if s = "forever" then none
  else
    let cs := s.toList
    let num := cs.dropLast
    if num ≠ [] ∧ num.all Char.isDigit then
      if cs.getLastD ' ' = 'd' then some (digitsToNat num)
      else if cs.getLastD ' ' = 'm' then some (digitsToNat num * 30)
      else if cs.getLastD ' ' = 'y' then some (digitsToNat num * 365)
      else some 30
    else some 30

/-- RetentionManager.calculateStorageUsed: recursive size of the
~/.cc-sessions directory. -/
def calculateStorageUsed (fs : FileMap) : Nat := dirSize fs DB_DIR

/-- RetentionManager.compressLogFile on one session: skip when logFile is
missing on disk; otherwise write the gzipped copy under ARCHIVE_DIR keyed
by id and record the path via updateArchivePath.  Returns whether a file
was backed up. -/
def compressLogFile (gz : Nat → Nat) (st : StoreState) (fs : FileMap)
    (s : SessionMemory) (now : Nat) : StoreState × FileMap × Bool :=
  if s.logFile ≠ "" ∧ fileExists fs s.logFile then
    let archivePath := ARCHIVE_DIR ++ "/" ++ s.id ++ ".jsonl.gz"
    (Store.updateArchivePath st s.id archivePath now,
     writeFile fs archivePath (gz (fileSize fs s.logFile)), true)
  else (st, fs, false)

/-- Step 2 of runCleanup: compress the log file of every archived session
that does not have one archived yet. -/
def compressPhase (gz : Nat → Nat) (st : StoreState) (fs : FileMap)
    (now : Nat) : List SessionMemory → StoreState × FileMap × Nat
  | [] => (st, fs, 0)
  | s :: rest =>
    if s.logFile ≠ "" ∧ s.logFileArchived = none then
      let c := compressLogFile gz st fs s now
      let r := compressPhase gz c.1 c.2.1 now rest
      (r.1, r.2.1, r.2.2 + (if c.2.2 then 1 else 0))
    else compressPhase gz st fs now rest

/-- Steps 1-3 of RetentionManager.runCleanup: archive, compress, hard
delete. -/
def prepPhases (gz : Nat → Nat) (cfg : RetentionConfig) (w : RWorld)
    (now : Nat) : CleanupReport × RWorld :=
  let p1 :=
    match parseDays cfg.fullSessions with
    | some d => Store.archiveOld w.store d now
    | none => (w.store, 0)
  let p2 := compressPhase gz p1.1 w.fs now (Store.getArchived p1.1)
  let p3 :=
    match parseDays cfg.archives with
    | some d =>
      let before := (Store.getStats p2.1 p2.2.1).totalSessions
      let del := Store.deleteOld p2.1 d now
      let after := (Store.getStats del.1 p2.2.1).totalSessions
      (del.1, del.2, if 0 < del.2 then (before - after) * 5000 else 0)
    | none => (p2.1, 0, 0)
  (⟨p1.2, p3.2.1, p3.2.2, p2.2.2⟩, ⟨p3.1, p2.2.1, w.dbPath⟩)

/-- Deleting one session's compressed archive file, if present on disk:
the updated file map and the bytes freed. -/
def dropArchiveFile (fs : FileMap) (s : SessionMemory) : FileMap × Nat :=
  match s.logFileArchived with
  | some p => if fileExists fs p then (removeFile fs p, fileSize fs p) else (fs, 0)
  | none => (fs, 0)

/-- The loop body of RetentionManager.trimToStorageLimit: stop once the
recomputed usage fits, otherwise delete the session's compressed archive
file if present, then the record, and recurse. -/
def trimLoop (maxBytes : Nat) (st : StoreState) (fs : FileMap) :
    List SessionMemory → StoreState × FileMap × Nat × Nat
  | [] => (st, fs, 0, 0)
  | s :: rest =>
    if calculateStorageUsed fs ≤ maxBytes then (st, fs, 0, 0)
    else
      let r := trimLoop maxBytes (Store.delete st s.id).1 (dropArchiveFile fs s).1 rest
      (r.1, r.2.1,
       r.2.2.1 + (if (Store.delete st s.id).2 then 1 else 0),
       r.2.2.2 + (dropArchiveFile fs s).2 + (if (Store.delete st s.id).2 then 5000 else 0))

/-- The oldest-first work list of trimToStorageLimit: getAll(true) (which
returns started_at descending) re-sorted ascending by startedAt with the
stable JS sort. -/
def trimOrder (st : StoreState) : List SessionMemory :=
  sortAscBy (fun s => (s.startedAt : Int)) (Store.getAll st true)

/-- RetentionManager.trimToStorageLimit. -/
def trimToStorageLimit (maxBytes : Nat) (st : StoreState) (fs : FileMap) :
    StoreState × FileMap × Nat × Nat :=
  trimLoop maxBytes st fs (trimOrder st)

/-- The byte ceiling: maxStorageGb * 1e9. -/
def maxBytesOf (cfg : RetentionConfig) : Nat := cfg.maxStorageGb * 1000000000

/-- RetentionManager.runCleanup: the three preparation phases, then the
quota trim, gated on getStats().storageUsedBytes (the size of the file at
DB_PATH) exceeding the ceiling. -/
def runCleanup (gz : Nat → Nat) (cfg : RetentionConfig) (w : RWorld)
    (now : Nat) : CleanupReport × RWorld :=
  let rep := (prepPhases gz cfg w now).1
  let w3 := (prepPhases gz cfg w now).2
  let stats := Store.getStats w3.store w3.fs
  if maxBytesOf cfg < stats.storageUsedBytes then
    let t := trimToStorageLimit (maxBytesOf cfg) w3.store w3.fs
    (⟨rep.sessionsArchived, rep.sessionsDeleted + t.2.2.1,
      rep.bytesFreed + t.2.2.2, rep.logFilesBackedUp⟩,
     ⟨t.1, t.2.1, w3.dbPath⟩)
  else (rep, w3)

end Retention

/-! ## Concrete objects used in witnesses and counterexamples -/

/-- A representative session (the shape of the repository's test fixture). -/
def baseSession : SessionMemory where
  id := "s1"
  claudeSessionId := "claude-session-123"
  projectPath := "/test/project"
  projectName := "test-project"
  startedAt := 1736676000000
  endedAt := 1736679600000
  duration := 60
  summary := "Test session summary"
  description := "Test session description"
  tasks := []
  tasksCompleted := 1
  tasksPending := 1
  filesCreated := ["/test/file1.ts"]
  filesModified := ["/test/file2.ts"]
  filesDeleted := []
  lastUserMessage := "Last user message"
  lastAssistantMessage := "Last assistant message"
  nextSteps := ["Next step 1"]
  keyDecisions := ["Decision 1"]
  blockers := []
  tokensUsed := 5000
  messagesCount := 10
  toolCallsCount := 5
  tags := ["test", "typescript"]
  archived := false
  archivedAt := none
  synced := false
  syncedAt := none
  logFile := "/test/log.jsonl"
  logFileArchived := none

/-- An engine whose query parser accepts everything and ranks uniformly. -/
def plainEngine : Fts5Engine where
  parseOk := fun _ => true
  score := fun _ _ => 0
  highlight := fun _ t => t

/-- An engine whose query parser rejects everything (exercises the catch
branch of SessionStore.search). -/
def failEngine : Fts5Engine where
  parseOk := fun _ => false
  score := fun _ _ => 0
  highlight := fun _ t => t

/-- First write of the C1 counterexample: the summary holds the bare token
"auth". -/
def cexOldSession : SessionMemory := { baseSession with summary := "auth stuff" }

/-- Second write under the same id: "auth" is no longer a token, but it is
a prefix of the token "authentication". -/
def cexNewSession : SessionMemory :=
  { baseSession with summary := "authentication feature" }

/-- The store after the two C1 counterexample writes. -/
def cexStore : StoreState :=
  Store.save (Store.save Store.empty cexOldSession 100) cexNewSession 200

/-- A session carrying a tag token that occurs in no other field: the
token reaches the index via the tags_text trigger value, but the three
LIKE fallback columns never contain it. -/
def taggedSession : SessionMemory := { baseSession with tags := ["uniquetag"] }

/-- A session whose archivedAt is the Unix epoch (C3 counterexample). -/
def epochSession : SessionMemory := { baseSession with archivedAt := some 0 }

/-- Record A of the spec §8 scene: startedAt 100 days before `sceneNow`. -/
def sceneA : SessionMemory :=
  { baseSession with id := "A", startedAt := 100 * Store.msPerDay }

/-- Record B of the spec §8 scene: startedAt at `sceneNow`. -/
def sceneB : SessionMemory :=
  { baseSession with id := "B", startedAt := 200 * Store.msPerDay }

/-- The moment the §8 scene runs. -/
def sceneNow : Nat := 200 * Store.msPerDay

/-- The §8 scene store holding A and B. -/
def sceneStore : StoreState :=
  Store.save (Store.save Store.empty sceneA 1) sceneB 2

/-- A retention configuration that retains everything by age but owns a
1 GB byte ceiling. -/
def cexConfig : RetentionConfig where
  fullSessions := "forever"
  archives := "forever"
  maxStorageGb := 1

/-- C4 counterexample world: the database file is tiny, but an orphaned
2 GB compressed archive lives under the archive directory, so total usage
exceeds the ceiling while getStats().storageUsedBytes does not. -/
def cexWorld : RWorld where
  store := sceneStore
  fs := [(DB_PATH, 100), (ARCHIVE_DIR ++ "/orphan.jsonl.gz", 2000000000)]
  dbPath := DB_PATH

/-- C8 counterexample world: the store was constructed on a custom database
path whose file holds 500 bytes; nothing exists at the default DB_PATH. -/
def customPathWorld : RWorld where
  store := sceneStore
  fs := [("/tmp/test.db", 500)]
  dbPath := "/tmp/test.db"

/-- A store holding one row whose startedAt is the epoch (the getStats
extrema guard drops it). -/
def epochStartStore : StoreState :=
  Store.save Store.empty { baseSession with id := "z", startedAt := 0 } 3

/-- The fallback search described by the spec: the records whose summary,
description or lastUserMessage contains the query as a (case-insensitive)
substring, in the store recency order, each with constant score 1 and the
summary echoed, truncated to the limit. -/
def specFallback (st : StoreState) (q : String) (limit : Nat) :
    List SearchResult :=
  ((sortDescBy (fun r => (r.startedAt : Int))
      (st.rows.filter (fun r =>
        Store.likeContains q r.summary || Store.likeContains q r.description ||
          Store.likeContains q r.lastUserMessage))).take limit).map
    (fun r => ⟨rowToSession r, 1, [⟨"summary", r.summary, r.summary⟩]⟩)

/-- The texts of the claim's indexed fields of a session: summary,
description, serialized tasks, concatenated created+modified file paths,
last user/assistant message, serialized tags — the non-id FTS columns the
insert trigger derives from the bound row. -/
def claimIndexedTexts (s : SessionMemory) : List String :=
  [s.summary, s.description, stringifyTasks s.tasks,
   stringifyStrings s.filesCreated ++ " " ++ stringifyStrings s.filesModified,
   s.lastUserMessage, s.lastAssistantMessage, stringifyStrings s.tags]

/-- The tokens occurring in a session's indexed fields. -/
def claimTokens (s : SessionMemory) : List (List Char) :=
  (claimIndexedTexts s).flatMap tokenize

/-! ## Helper lemmas -/

theorem mem_insDescBy {α : Type} (key : α → Int) (x y : α) (l : List α) :
    y ∈ insDescBy key x l ↔ y = x ∨ y ∈ l := by
  induction l with
  | nil => simp [insDescBy]
  | cons a l ih =>
    simp only [insDescBy]
    split
    · simp
    · simp only [List.mem_cons, ih]
      tauto

theorem mem_sortDescBy {α : Type} (key : α → Int) (y : α) (l : List α) :
    y ∈ sortDescBy key l ↔ y ∈ l := by
  induction l with
  | nil => simp [sortDescBy]
  | cons a l ih => simp [sortDescBy, mem_insDescBy, ih]

theorem mem_insAscBy {α : Type} (key : α → Int) (x y : α) (l : List α) :
    y ∈ insAscBy key x l ↔ y = x ∨ y ∈ l := by
  induction l with
  | nil => simp [insAscBy]
  | cons a l ih =>
    simp only [insAscBy]
    split
    · simp
    · simp only [List.mem_cons, ih]
      tauto

theorem mem_sortAscBy {α : Type} (key : α → Int) (y : α) (l : List α) :
    y ∈ sortAscBy key l ↔ y ∈ l := by
  induction l with
  | nil => simp [sortAscBy]
  | cons a l ih => simp [sortAscBy, mem_insAscBy, ih]

theorem find?_append_of_none {α : Type} (p : α → Bool) (l m : List α)
    (h : ∀ a ∈ l, p a = false) :
    (l ++ m).find? p = m.find? p := by
  induction l with
  | nil => rfl
  | cons a l ih =>
    have ha := h a (List.mem_cons_self a l)
    simp only [List.cons_append, List.find?_cons, ha]
    exact ih (fun b hb => h b (List.mem_cons_of_mem a hb))

theorem find?_filter_key {α : Type} (key : α → String) (i : String)
    (l : List α) (x : α) (hx : key x = i) :
    ((l.filter (fun a => key a ≠ i)) ++ [x]).find? (fun a => key a = i) =
      some x := by
  rw [find?_append_of_none]
  · simp [List.find?_cons, hx]
  · intro a ha
    have := (List.mem_filter.mp ha).2
    simp only [decide_not] at this
    simpa using this

theorem filter_key_self {α : Type} (key : α → String) (i : String)
    (l : List α) :
    (l.filter (fun a => key a ≠ i)).filter (fun a => key a ≠ i) =
      l.filter (fun a => key a ≠ i) := by
  rw [List.filter_filter]
  exact List.filter_congr (fun x _ => Bool.and_self _)

theorem filter_key_none {α : Type} (key : α → String) (i : String)
    (l : List α) :
    (l.filter (fun a => key a ≠ i)).filter (fun a => key a = i) = [] := by
  rw [List.filter_filter, List.filter_eq_nil_iff]
  intro a _
  by_cases h : key a = i <;> simp [h]

theorem normTime_idem (a : Option Nat) : normTime (normTime a) = normTime a := by
  cases a with
  | none => rfl
  | some t =>
    by_cases h : t = 0 <;> simp [normTime, h]

theorem normTime_of_ne (a : Option Nat) (h : a ≠ some 0) : normTime a = a := by
  cases a with
  | none => rfl
  | some t =>
    have ht : t ≠ 0 := fun hz => h (by rw [hz])
    simp [normTime, ht]

theorem normStr_idem (a : Option String) : normStr (normStr a) = normStr a := by
  cases a with
  | none => rfl
  | some s =>
    by_cases h : s = "" <;> simp [normStr, h]

theorem normStr_of_ne (a : Option String) (h : a ≠ some "") : normStr a = a := by
  cases a with
  | none => rfl
  | some s =>
    have hs : s ≠ "" := fun hz => h (by rw [hz])
    simp [normStr, hs]

theorem find?_map_keyed {α : Type} (f : α → α) (key : α → String)
    (hf : ∀ a, key (f a) = key a) (i : String) (l : List α) :
    (l.map f).find? (fun a => key a = i) =
      (l.find? (fun a => key a = i)).map f := by
  induction l with
  | nil => rfl
  | cons a l ih =>
    simp only [List.map_cons, List.find?_cons, hf a]
    by_cases h : key a = i <;> simp [h, ih]

theorem foldl_if_add {α : Type} (p : α → Bool) (k : Nat) (l : List α) :
    ∀ acc : Nat,
      l.foldl (fun a x => if p x then a + k else a) acc = acc + k * l.countP p := by
  induction l with
  | nil => intro acc; simp
  | cons x l ih =>
    intro acc
    simp only [List.foldl_cons, List.countP_cons]
    by_cases h : p x = true
    · rw [if_pos h, ih, h, if_pos rfl, Nat.mul_add, Nat.mul_one]
      omega
    · rw [if_neg h, ih]
      simp only [h, if_neg]
      simp

theorem any_eq_decide_mem (l : List String) (f : String) :
    (l.any (fun g => g = f)) = decide (f ∈ l) := by
  induction l with
  | nil => simp
  | cons g l ih =>
    simp only [List.any_cons, ih, List.mem_cons]
    by_cases hg : f = g <;> by_cases hm : f ∈ l <;> simp [hg, hm]
    intro h
    exact hg h.symm

theorem fileSize_of_not_exists (fs : FileMap) (p : String)
    (h : fileExists fs p = false) : fileSize fs p = 0 := by
  unfold fileSize
  cases hf : fs.find? (fun e => e.1 = p) with
  | none => rfl
  | some e =>
    exfalso
    have hp := List.find?_some hf
    have hm := List.mem_of_find?_eq_some hf
    have hany : fs.any (fun e => e.1 = p) = true := List.any_eq_true.mpr ⟨e, hm, hp⟩
    unfold fileExists at h
    rw [h] at hany
    exact Bool.false_ne_true hany

theorem trimLoop_subset (maxB : Nat) :
    ∀ (l : List SessionMemory) (st : StoreState) (fs : FileMap),
      ∀ r ∈ ((Retention.trimLoop maxB st fs l).1).rows, r ∈ st.rows := by
  intro l
  induction l with
  | nil => intro st fs r hr; exact hr
  | cons s rest ih =>
    intro st fs r hr
    simp only [Retention.trimLoop] at hr
    split at hr
    · exact hr
    · have hr2 := ih (Store.delete st s.id).1 (Retention.dropArchiveFile fs s).1 r hr
      exact List.mem_of_mem_filter hr2

theorem trimLoop_quota (maxB : Nat) :
    ∀ (l : List SessionMemory) (st : StoreState) (fs : FileMap),
      Retention.calculateStorageUsed ((Retention.trimLoop maxB st fs l).2.1) ≤ maxB
      ∨ ∀ r ∈ ((Retention.trimLoop maxB st fs l).1).rows,
          r.id ∉ l.map (fun v => v.id) := by
  intro l
  induction l with
  | nil =>
    intro st fs
    right
    intro r _
    simp
  | cons s rest ih =>
    intro st fs
    simp only [Retention.trimLoop]
    split
    · next h => exact Or.inl h
    · rcases ih (Store.delete st s.id).1 (Retention.dropArchiveFile fs s).1 with h | h
      · exact Or.inl h
      · right
        intro r hr
        have hrest := h r hr
        have hsub := trimLoop_subset maxB rest (Store.delete st s.id).1
          (Retention.dropArchiveFile fs s).1 r hr
        have hne : r.id ≠ s.id := by
          have := (List.mem_filter.mp hsub).2
          simpa using this
        simp only [List.map_cons, List.mem_cons]
        push_neg
        exact ⟨hne, hrest⟩

theorem trimLoop_rows_eq (maxB : Nat) :
    ∀ (l : List SessionMemory) (st : StoreState) (fs : FileMap),
      ∃ k, ((Retention.trimLoop maxB st fs l).1).rows =
        st.rows.filter
          (fun r => decide (r.id ∉ ((l.take k).map (fun v => v.id)))) := by
  intro l
  induction l with
  | nil =>
    intro st fs
    refine ⟨0, ?_⟩
    simp [Retention.trimLoop]
  | cons s rest ih =>
    intro st fs
    simp only [Retention.trimLoop]
    split
    · refine ⟨0, ?_⟩
      simp
    · obtain ⟨k, hk⟩ := ih (Store.delete st s.id).1 (Retention.dropArchiveFile fs s).1
      refine ⟨k + 1, ?_⟩
      rw [hk]
      show ((st.rows.filter (fun r => r.id ≠ s.id)).filter _) = _
      rw [List.filter_filter]
      apply List.filter_congr
      intro x _
      by_cases h1 : x.id = s.id <;> by_cases h2 : x.id ∈ (rest.take k).map (fun v => v.id) <;>
        simp [h1, h2]

theorem mem_trimOrder_ids (st : StoreState) (r : Row) (hr : r ∈ st.rows) :
    r.id ∈ (Retention.trimOrder st).map (fun v => v.id) := by
  unfold Retention.trimOrder
  apply List.mem_map.mpr
  refine ⟨rowToSession r, ?_, rfl⟩
  rw [mem_sortAscBy]
  unfold Store.getAll
  simp only [if_pos]
  apply List.mem_map.mpr
  exact ⟨r, (mem_sortDescBy _ r _).mpr hr, rfl⟩

theorem getById_save (st : StoreState) (s : SessionMemory) (now : Nat) :
    Store.getById (Store.save st s now) s.id =
      some (rowToSession (bindRow s now)) := by
  have h := find?_filter_key (fun r : Row => r.id) s.id st.rows (bindRow s now) rfl
  exact congrArg (Option.map rowToSession) h


theorem getStats_storage (st : StoreState) (fs : FileMap) :
    (Store.getStats st fs).storageUsedBytes = fileSize fs DB_PATH := by
  show (if fileExists fs DB_PATH then fileSize fs DB_PATH else 0) = _
  by_cases h : fileExists fs DB_PATH = true
  · rw [if_pos h]
  · rw [if_neg h, fileSize_of_not_exists fs DB_PATH (Bool.not_eq_true _ ▸ (by simpa using h))]

theorem filter_append_key {α : Type} (key : α → String) (i : String)
    (l : List α) (x : α) (hx : key x = i) :
    (l.filter (fun a => key a ≠ i) ++ [x]).filter (fun a => key a ≠ i) =
      l.filter (fun a => key a ≠ i) := by
  rw [List.filter_append, filter_key_self]
  simp [hx]

/-! ## Claim theorems -/

/-- C2: saving the same session twice in succession leaves the store in
the same observable state as the single later save: the row table is
equal outright, and getById, getAll, search and getStats agree on every
input (the second upsert's stale index entry duplicates the values of
the fresh one, so index hits are unchanged); a save on an existing id
leaves exactly one row under that id and getById returns the freshly
decoded upsert, so an existing id is fully replaced rather than
duplicated or rejected. -/
theorem claim2_save_upsert (st : StoreState) (s : SessionMemory) (t1 t2 : Nat) :
    (Store.save (Store.save st s t1) s t2).rows = (Store.save st s t2).rows ∧
    (∀ i, Store.getById (Store.save (Store.save st s t1) s t2) i =
      Store.getById (Store.save st s t2) i) ∧
    (∀ b, Store.getAll (Store.save (Store.save st s t1) s t2) b =
      Store.getAll (Store.save st s t2) b) ∧
    (∀ E q limit, Store.search E (Store.save (Store.save st s t1) s t2) q
        limit = Store.search E (Store.save st s t2) q limit) ∧
    (∀ fs, Store.getStats (Store.save (Store.save st s t1) s t2) fs =
      Store.getStats (Store.save st s t2) fs) ∧
    ((Store.save st s t2).rows.filter (fun r => r.id = s.id)).length = 1 ∧
    Store.getById (Store.save st s t2) s.id =
      some (rowToSession (bindRow s t2)) := by
  have hrows : (Store.save (Store.save st s t1) s t2).rows =
      (Store.save st s t2).rows := by
    show ((st.rows.filter (fun r => r.id ≠ s.id) ++ [bindRow s t1]).filter
        (fun r => r.id ≠ s.id)) ++ [bindRow s t2] =
      st.rows.filter (fun r => r.id ≠ s.id) ++ [bindRow s t2]
    rw [filter_append_key (fun r : Row => r.id) s.id st.rows (bindRow s t1)
      rfl]
  have hfts : ∀ p : FtsEntry → Bool,
      (Store.save (Store.save st s t1) s t2).fts.any p =
        (Store.save st s t2).fts.any p := by
    intro p
    have he : ftsOfRow (bindRow s t1) = ftsOfRow (bindRow s t2) := rfl
    show ((st.fts ++ [ftsOfRow (bindRow s t1)]) ++
        [ftsOfRow (bindRow s t2)]).any p =
      (st.fts ++ [ftsOfRow (bindRow s t2)]).any p
    rw [he]
    simp [List.any_append, Bool.or_assoc]
  refine ⟨hrows, ?_, ?_, ?_, ?_, ?_, getById_save st s t2⟩
  · intro i
    unfold Store.getById
    rw [hrows]
  · intro b
    unfold Store.getAll
    rw [hrows]
  · intro E q limit
    unfold Store.search Store.simplSearch
    rw [hrows, hfts (ftsEntryMatch q)]
  · intro fs
    unfold Store.getStats
    rw [hrows]
  · show ((st.rows.filter (fun r => r.id ≠ s.id) ++ [bindRow s t2]).filter
      (fun r => r.id = s.id)).length = 1
    rw [List.filter_append, filter_key_none (fun r : Row => r.id) s.id st.rows]
    simp [bindRow]

/-- C10: save persists an epoch-0 archivedAt or syncedAt and an empty
logFileArchived as absent (getById then returns undefined for them), and
preserves every other value of these optional fields; normTime and
normStr are exactly the falsy-guards the source applies on both the
write and the read path. -/
theorem claim10_optional_fields (st : StoreState) (s : SessionMemory) (now : Nat) :
    (Store.getById (Store.save st s now) s.id).map (fun v => v.archivedAt) =
      some (normTime s.archivedAt) ∧
    (Store.getById (Store.save st s now) s.id).map (fun v => v.syncedAt) =
      some (normTime s.syncedAt) ∧
    (Store.getById (Store.save st s now) s.id).map (fun v => v.logFileArchived) =
      some (normStr s.logFileArchived) ∧
    normTime (some 0) = none ∧ normStr (some "") = none ∧
    normTime none = none ∧ normStr none = none ∧
    (∀ t : Nat, normTime (some (t + 1)) = some (t + 1)) ∧
    (∀ (c : Char) (cs : List Char),
      normStr (some (String.mk (c :: cs))) = some (String.mk (c :: cs))) := by
  refine ⟨?_, ?_, ?_, rfl, rfl, rfl, rfl, fun t => by simp [normTime],
    fun c cs => ?_⟩
  · rw [getById_save]
    show some (normTime (normTime s.archivedAt)) = some (normTime s.archivedAt)
    rw [normTime_idem]
  · rw [getById_save]
    show some (normTime (normTime s.syncedAt)) = some (normTime s.syncedAt)
    rw [normTime_idem]
  · rw [getById_save]
    show some (normStr (normStr s.logFileArchived)) =
      some (normStr s.logFileArchived)
    rw [normStr_idem]
  · have h : String.mk (c :: cs) ≠ "" := by
      simp [String.ext_iff]
    simp [normStr, h]

/-- C6: whenever the index's query parser rejects the full-text form of the
query, search does not propagate the error: it returns exactly the
substring-match fallback with constant score, truncated to the limit. -/
theorem claim6_search_fallback (E : Fts5Engine) (st : StoreState) (q : String)
    (limit : Nat) (hE : E.parseOk (ftsQueryString q) = false) :
    Store.search E st q limit = specFallback st q limit := by
  have h : Store.search E st q limit = Store.simplSearch st q limit := by
    unfold Store.search
    simp [hE]
  rw [h]
  rfl

/-- C6 witness: a concrete engine that rejects every query, on a concrete
store; the theorem applies and both sides evaluate. -/
theorem claim6_search_fallback_witness :
    failEngine.parseOk (ftsQueryString "authentication") = false ∧
    Store.search failEngine cexStore "authentication" 20 =
      specFallback cexStore "authentication" 20 :=
  ⟨rfl, claim6_search_fallback failEngine cexStore "authentication" 20 rfl⟩

/-- C9: parseDays maps "forever" to the unbounded sentinel, maps N followed
by d, m or y to N, N*30 and N*365 days, and maps every other string to 30
days, totally (specParseDays is the claim's wording, proved equal to the
source's regex-and-switch form on every string). -/
theorem claim9_parseDays :
    (∀ r : String, Retention.parseDays r = Retention.specParseDays r) ∧
    Retention.parseDays "forever" = none ∧
    Retention.parseDays "7d" = some 7 ∧
    Retention.parseDays "2m" = some 60 ∧
    Retention.parseDays "3y" = some 1095 ∧
    Retention.parseDays "junk" = some 30 ∧
    Retention.parseDays "" = some 30 := by
  refine ⟨?_, by decide, by decide, by decide, by decide, by decide, by decide⟩
  intro r
  unfold Retention.parseDays Retention.specParseDays Retention.regexDMY
  by_cases hf : r = "forever"
  · simp [hf]
  · rw [if_neg hf, if_neg hf]
    cases hlast : r.toList.getLast? with
    | none =>
      have hnil : r.data = [] := List.getLast?_eq_none_iff.mp hlast
      simp [hnil]
    | some u =>
      have hd : r.toList.getLastD ' ' = u := by
        rw [List.getLastD_eq_getLast?, hlast]
        rfl
      dsimp only
      rw [hd]
      by_cases hnum : r.toList.dropLast ≠ [] ∧
          r.toList.dropLast.all Char.isDigit = true
      · rw [if_pos hnum]
        by_cases hu : u = 'd' ∨ u = 'm' ∨ u = 'y'
        · rw [if_pos (show (u = 'd' ∨ u = 'm' ∨ u = 'y') ∧
              r.toList.dropLast ≠ [] ∧
                r.toList.dropLast.all Char.isDigit = true from
            ⟨hu, hnum.1, hnum.2⟩)]
        · rw [if_neg (fun hcon => hu hcon.1)]
          push_neg at hu
          rw [if_neg hu.1, if_neg hu.2.1, if_neg hu.2.2]
      · rw [if_neg hnum, if_neg (fun hcon => hnum ⟨hcon.2.1, hcon.2.2⟩)]

theorem rowToSession_mark (r : Row) (now : Nat) (hnow : now ≠ 0) :
    rowToSession { r with archived := true, archivedAt := some now } =
      { rowToSession r with archived := true, archivedAt := some now } := by
  simp [rowToSession, normTime, hnow]

theorem archiveHit_mark (cutoff : Int) (r : Row) (now : Nat) :
    Store.archiveHit cutoff { r with archived := true, archivedAt := some now } =
      false := by
  simp [Store.archiveHit]

/-- C5: archiveOld never un-archives, marks archived and archivedAt = now
exactly on the non-archived records strictly older than the cutoff,
returns the number of records so changed, and run again with the same
cutoff changes nothing and returns 0. -/
theorem claim5_archiveOld (st : StoreState) (d now : Nat) (hnow : now ≠ 0) :
    (∀ i, (Store.getById st i).map (fun v => v.archived) = some true →
      (Store.getById (Store.archiveOld st d now).1 i).map (fun v => v.archived) =
        some true) ∧
    (∀ i, Store.getById (Store.archiveOld st d now).1 i =
      (Store.getById st i).map (fun v =>
        if (v.startedAt : Int) <
              (now : Int) - (d : Int) * (Store.msPerDay : Int) ∧
            v.archived = false then
          { v with archived := true, archivedAt := some now }
        else v)) ∧
    (Store.archiveOld st d now).2 =
      (st.rows.filter
        (Store.archiveHit
          ((now : Int) - (d : Int) * (Store.msPerDay : Int)))).length ∧
    Store.archiveOld (Store.archiveOld st d now).1 d now =
      ((Store.archiveOld st d now).1, 0) := by
  set cutoff : Int := (now : Int) - (d : Int) * (Store.msPerDay : Int) with hcut
  set f : Row → Row := fun r =>
    if Store.archiveHit cutoff r then
      { r with archived := true, archivedAt := some now }
    else r with hfdef
  have hfid : ∀ r : Row, (f r).id = r.id := by
    intro r
    rw [hfdef]
    dsimp only
    split <;> rfl
  have hff : ∀ r : Row, f (f r) = f r := by
    intro r
    by_cases h : Store.archiveHit cutoff r = true
    · rw [hfdef]
      dsimp only
      rw [if_pos h, if_neg]
      rw [archiveHit_mark]
      simp
    · rw [hfdef]
      dsimp only
      rw [if_neg h, if_neg h]
  have hcomm : ∀ r : Row,
      rowToSession (f r) =
        (fun v : SessionMemory =>
          if (v.startedAt : Int) < cutoff ∧ v.archived = false then
            { v with archived := true, archivedAt := some now }
          else v) (rowToSession r) := by
    intro r
    dsimp only
    by_cases h : Store.archiveHit cutoff r = true
    · have hp : ((r.startedAt : Int) < cutoff ∧ r.archived = false) := by
        simpa [Store.archiveHit] using h
      rw [hfdef]
      dsimp only
      rw [if_pos h, rowToSession_mark r now hnow, if_pos]
      exact hp
    · have hp : ¬((r.startedAt : Int) < cutoff ∧ r.archived = false) := by
        intro hc
        exact h (by simp [Store.archiveHit, hc.1, hc.2])
      rw [hfdef]
      dsimp only
      rw [if_neg h]
      have hp2 : ¬(((rowToSession r).startedAt : Int) < cutoff ∧
          (rowToSession r).archived = false) := hp
      rw [if_neg hp2]
  have hii : ∀ i, Store.getById (Store.archiveOld st d now).1 i =
      (Store.getById st i).map (fun v =>
        if (v.startedAt : Int) < cutoff ∧ v.archived = false then
          { v with archived := true, archivedAt := some now }
        else v) := by
    intro i
    show ((st.rows.map f).find? (fun r => r.id = i)).map rowToSession = _
    rw [find?_map_keyed f (fun r : Row => r.id) hfid i st.rows]
    cases hfind : st.rows.find? (fun r => r.id = i) with
    | none => simp [Store.getById, hfind]
    | some v =>
      simp only [Store.getById, hfind, Option.map_some']
      rw [hcomm v]
  refine ⟨?_, hii, rfl, ?_⟩
  · intro i h
    rw [hii i]
    cases hfind : Store.getById st i with
    | none => rw [hfind] at h; simp at h
    | some v =>
      rw [hfind] at h
      simp only [Option.map_some', Option.some.injEq] at h
      simp only [Option.map_some', Option.some.injEq]
      rw [if_neg]
      · exact h
      · intro hc
        rw [h] at hc
        simp at hc
  · show ((⟨(st.rows.map f).map f, st.fts⟩ : StoreState),
        ((st.rows.map f).filter (Store.archiveHit cutoff)).length) =
      ((⟨st.rows.map f, st.fts⟩ : StoreState), 0)
    refine congrArg₂ Prod.mk ?_ ?_
    · refine congrArg₂ StoreState.mk ?_ rfl
      rw [List.map_map]
      exact List.map_congr_left (fun r _ => hff r)
    · rw [List.length_eq_zero, List.filter_eq_nil_iff]
      intro x hx
      obtain ⟨r, _, rfl⟩ := List.mem_map.mp hx
      by_cases h : Store.archiveHit cutoff r = true
      · rw [hfdef]
        dsimp only
        rw [if_pos h, archiveHit_mark]
        simp
      · rw [hfdef]
        dsimp only
        rw [if_neg h]
        simpa using h

/-- C5 witness: the two-record scene; the hypothesis now ≠ 0 holds and the
exact-update clause applied at record A shows it archived. -/
theorem claim5_archiveOld_witness :
    sceneNow ≠ 0 ∧
    (Store.getById (Store.archiveOld sceneStore 30 sceneNow).1 "A").map
        (fun v => v.archived) = some true :=
  ⟨by decide, by
    have h := (claim5_archiveOld sceneStore 30 sceneNow (by decide)).2.1 "A"
    rw [h]
    decide⟩

theorem relatedScore_eq_spec (target cand : SessionMemory) :
    SearchIndex.relatedScore target cand = SearchIndex.specScore target cand := by
  unfold SearchIndex.relatedScore SearchIndex.specScore
  dsimp only
  rw [foldl_if_add
      (fun f => (cand.filesCreated ++ cand.filesModified).any (fun g => g = f)) 3
      (target.filesCreated ++ target.filesModified),
    foldl_if_add (fun tg => cand.tags.any (fun g => g = tg)) 2 target.tags]
  have h1 : List.countP
      (fun f => (cand.filesCreated ++ cand.filesModified).any (fun g => g = f))
      (target.filesCreated ++ target.filesModified) =
    List.countP (fun f => decide (f ∈ cand.filesCreated ++ cand.filesModified))
      (target.filesCreated ++ target.filesModified) :=
    List.countP_congr (fun x _ => by rw [any_eq_decide_mem])
  have h2 : List.countP (fun tg => cand.tags.any (fun g => g = tg)) target.tags =
    List.countP (fun tg => decide (tg ∈ cand.tags)) target.tags :=
    List.countP_congr (fun x _ => by rw [any_eq_decide_mem])
  rw [h1, h2]

/-- C7: getRelated ranks the other non-archived records exactly by the
claim's additive score (+5 same project, +3 per shared created/modified
file, +2 per shared tag), excludes zero scores, breaks ties by the
store's natural order (the stable sort over the recency-ordered scan),
truncates to the limit, and returns [] for an unknown id. -/
theorem claim7_getRelated (st : StoreState) (i : String) (limit : Nat) :
    SearchIndex.getRelated st i limit = SearchIndex.specRelated st i limit ∧
    (Store.getById st i = none → SearchIndex.getRelated st i limit = []) := by
  constructor
  · unfold SearchIndex.getRelated SearchIndex.specRelated
    cases h : Store.getById st i with
    | none => rfl
    | some session =>
      have hmap : ((Store.getAll st false).filter (fun v => v.id ≠ i)).map
          (fun v => (v, SearchIndex.relatedScore session v)) =
        ((Store.getAll st false).filter (fun v => v.id ≠ i)).map
          (fun v => (v, SearchIndex.specScore session v)) :=
        List.map_congr_left (fun v _ => by rw [relatedScore_eq_spec])
      simp only [hmap]
  · intro h
    unfold SearchIndex.getRelated
    rw [h]

/-- C7 witness: the unknown-id clause at a concrete store. -/
theorem claim7_getRelated_witness :
    Store.getById cexStore "missing" = none ∧
    SearchIndex.getRelated cexStore "missing" 5 = [] :=
  ⟨by decide, (claim7_getRelated cexStore "missing" 5).2 (by decide)⟩

theorem rowToSession_bindRow (s : SessionMemory) (now : Nat)
    (h1 : s.archivedAt ≠ some 0) (h2 : s.syncedAt ≠ some 0)
    (h3 : s.logFileArchived ≠ some "") :
    rowToSession (bindRow s now) = s := by
  unfold rowToSession bindRow
  dsimp only
  rw [normTime_idem, normTime_idem, normStr_idem, normTime_of_ne _ h1,
    normTime_of_ne _ h2, normStr_of_ne _ h3]

/-- C3 counterexample: the claim fails as stated.  For the session whose
archivedAt is the Unix epoch (timestamp 0), save followed by getById
returns archivedAt = undefined, which is absence of the field, not a
representation of the same timestamp at lower precision. -/
theorem claim3_round_trip_cex :
    epochSession.archivedAt = some 0 ∧
    (Store.getById (Store.save Store.empty epochSession 7)
        epochSession.id).map (fun v => v.archivedAt) = some none ∧
    Store.getById (Store.save Store.empty epochSession 7) epochSession.id ≠
      some epochSession := by
  refine ⟨rfl, ?_, ?_⟩ <;> decide

/-- C3 amended: save then getById returns a value equal to the saved
session in every field, for every session whose archivedAt and syncedAt
are not the epoch timestamp 0 and whose logFileArchived is not the empty
string (those three values are persisted as absent by the falsy guards of
the save binding). -/
theorem claim3_round_trip (st : StoreState) (s : SessionMemory) (now : Nat)
    (h1 : s.archivedAt ≠ some 0) (h2 : s.syncedAt ≠ some 0)
    (h3 : s.logFileArchived ≠ some "") :
    Store.getById (Store.save st s now) s.id = some s := by
  rw [getById_save, rowToSession_bindRow s now h1 h2 h3]

/-- C3 witness: the base fixture session round-trips on the nose. -/
theorem claim3_round_trip_witness :
    (baseSession.archivedAt ≠ some 0 ∧ baseSession.syncedAt ≠ some 0 ∧
      baseSession.logFileArchived ≠ some "") ∧
    Store.getById (Store.save Store.empty baseSession 7) baseSession.id =
      some baseSession :=
  ⟨by decide,
   claim3_round_trip Store.empty baseSession 7 (by decide) (by decide)
     (by decide)⟩

/-- C8 counterexample: the claim fails as stated.  getStats measures the
module constant DB_PATH, not the path the store was constructed with: on a
store constructed at /tmp/test.db whose artifact holds 500 bytes it
reports 0.  It also reports no oldest session on a non-empty store whose
minimum startedAt is the epoch 0, through the same falsy guard. -/
theorem claim8_getStats_cex :
    customPathWorld.dbPath = "/tmp/test.db" ∧
    fileSize customPathWorld.fs customPathWorld.dbPath = 500 ∧
    (Store.getStats customPathWorld.store
        customPathWorld.fs).storageUsedBytes = 0 ∧
    epochStartStore.rows.length = 1 ∧
    (Store.getStats epochStartStore []).oldestSession = none := by
  refine ⟨rfl, ?_, ?_, ?_, ?_⟩ <;> decide

/-- C8 amended: getStats counts total/active/archived over all rows, its
storageUsedBytes is the size of the file at the default DB_PATH (equal to
the constructed artifact only when the store was constructed there), and
the startedAt extrema are reported through the falsy guard normTime
(absent on an empty store and when the extremum is the epoch); on the §8
scene after archiveOld(30) it reports totals (2, 1, 1). -/
theorem claim8_getStats (st : StoreState) (fs : FileMap) :
    (Store.getStats st fs).totalSessions = st.rows.length ∧
    (Store.getStats st fs).activeSessions =
      (st.rows.filter (fun r => r.archived = false)).length ∧
    (Store.getStats st fs).archivedSessions =
      (st.rows.filter (fun r => r.archived = true)).length ∧
    (Store.getStats st fs).storageUsedBytes = fileSize fs DB_PATH ∧
    (Store.getStats st fs).oldestSession =
      normTime (Store.minStarted st.rows) ∧
    (Store.getStats st fs).newestSession =
      normTime (Store.maxStarted st.rows) ∧
    (Store.getStats (Store.archiveOld sceneStore 30 sceneNow).1
        []).totalSessions = 2 ∧
    (Store.getStats (Store.archiveOld sceneStore 30 sceneNow).1
        []).activeSessions = 1 ∧
    (Store.getStats (Store.archiveOld sceneStore 30 sceneNow).1
        []).archivedSessions = 1 :=
  ⟨rfl, rfl, rfl, getStats_storage st fs, rfl, rfl, by decide, by decide,
   by decide⟩

/-- C1: the claim states the contract the code itself is built around,
and the code breaks it through a schema slip.  sessions_fts binds
content='sessions' but declares columns tasks_text, files_text and
tags_text that the sessions table does not have, so the entire FTS result
path (bm25 ranking, highlights) can never complete: the first index hit
raises 'no such column' and the catch answers from the LIKE fallback over
summary, description and last_user_message only.  Concretely, the token
"uniquetag" occurs in the saved session's indexed fields (its serialized
tags), the index matches it, yet search returns no result at all. -/
theorem claim1_fts_schema_bug :
    "uniquetag".toList ∈ claimTokens taggedSession ∧
    (Store.save Store.empty taggedSession 5).fts.any
      (ftsEntryMatch "uniquetag") = true ∧
    Store.search plainEngine (Store.save Store.empty taggedSession 5)
      "uniquetag" 20 = [] := by
  refine ⟨?_, ?_, ?_⟩ <;> decide

/-- C4 counterexample: the claim fails as stated.  runCleanup gates the
quota trim on getStats().storageUsedBytes, which is the size of the
database file alone (at DB_PATH), while the trim loop measures the whole
~/.cc-sessions directory: with a 100-byte database file and a 2 GB
orphaned compressed archive under the 1 GB ceiling configuration, cleanup
returns with total on-disk usage above the ceiling and records still
present. -/
theorem claim4_quota_cex :
    Retention.maxBytesOf cexConfig <
      Retention.calculateStorageUsed
        ((Retention.runCleanup id cexConfig cexWorld sceneNow).2).fs ∧
    ((Retention.runCleanup id cexConfig cexWorld sceneNow).2).store.rows ≠
      [] := by
  refine ⟨?_, ?_⟩ <;> decide

/-- C4 amended: after runCleanup, either the phase-4 gate did not fire
(the DB-file size getStats reports was within the ceiling), or total
on-disk usage is at or below the ceiling, or every record has been
hard-deleted; and the surviving rows are exactly the stored rows minus
the ids of an oldest-first prefix of the trim order (the quota-trim
phase visits all records sorted ascending by startedAt, deleting each
record's archive file and then the record, stopping once recomputed
usage fits). -/
theorem claim4_quota (gz : Nat → Nat) (cfg : RetentionConfig) (w : RWorld)
    (now : Nat) :
    ((Store.getStats (Retention.prepPhases gz cfg w now).2.store
          (Retention.prepPhases gz cfg w now).2.fs).storageUsedBytes ≤
        Retention.maxBytesOf cfg ∨
      Retention.calculateStorageUsed
          ((Retention.runCleanup gz cfg w now).2).fs ≤
        Retention.maxBytesOf cfg ∨
      ((Retention.runCleanup gz cfg w now).2).store.rows = []) ∧
    (∃ k, ((Retention.runCleanup gz cfg w now).2).store.rows =
      ((Retention.prepPhases gz cfg w now).2).store.rows.filter
        (fun r => decide (r.id ∉
          ((Retention.trimOrder
              (Retention.prepPhases gz cfg w now).2.store).take k).map
            (fun v => v.id)))) := by
  unfold Retention.runCleanup
  dsimp only
  by_cases hgate : Retention.maxBytesOf cfg <
      (Store.getStats (Retention.prepPhases gz cfg w now).2.store
        (Retention.prepPhases gz cfg w now).2.fs).storageUsedBytes
  · rw [if_pos hgate]
    dsimp only
    unfold Retention.trimToStorageLimit
    constructor
    · rcases trimLoop_quota (Retention.maxBytesOf cfg)
          (Retention.trimOrder (Retention.prepPhases gz cfg w now).2.store)
          (Retention.prepPhases gz cfg w now).2.store
          (Retention.prepPhases gz cfg w now).2.fs with hq | hq
      · exact Or.inr (Or.inl hq)
      · refine Or.inr (Or.inr (List.eq_nil_iff_forall_not_mem.mpr ?_))
        intro r hr
        have hsub := trimLoop_subset (Retention.maxBytesOf cfg)
          (Retention.trimOrder (Retention.prepPhases gz cfg w now).2.store)
          (Retention.prepPhases gz cfg w now).2.store
          (Retention.prepPhases gz cfg w now).2.fs r hr
        exact hq r hr (mem_trimOrder_ids _ r hsub)
    · exact trimLoop_rows_eq (Retention.maxBytesOf cfg)
        (Retention.trimOrder (Retention.prepPhases gz cfg w now).2.store)
        (Retention.prepPhases gz cfg w now).2.store
        (Retention.prepPhases gz cfg w now).2.fs
  · rw [if_neg hgate]
    constructor
    · exact Or.inl (Nat.le_of_not_lt hgate)
    · refine ⟨0, ?_⟩
      simp

end CCSessions